import Mathlib

/-!
Verification of the collaborative session relay in
`src/backend/handlers/websocket.go` (package `handlers`).

The Go file maintains a global registry of connected clients (`clients`,
a map guarded by `clientsMutex`), a single in-memory shared state blob
(`sharedState` guarded by `stateMutex`), and a snapshot file
(`persistenceFile`).  We embed the message-handling and persistence
functions as pure functions over an explicit `ServerState`:

* a client's outbound channel `send chan []byte` (capacity 256) becomes a
  bounded list `Client.send`;
* the room path parameter read in `HandleWebSocket` becomes `Client.room`
  (the Go code only logs it; it is carried so that room-related
  properties can be stated);
* `go saveState()` (a fire-and-forget goroutine spawn) is recorded by
  incrementing a `pendingSaves` counter; `saveState` itself is a separate
  state transformer;
* the snapshot file is modelled as `ServerState.file : Option (List Nat)`
  (`none` = file absent), and `os.ReadFile` outcomes as `ReadResult`,
  which also has an `ioError` case for non-`IsNotExist` failures;
* `log.Printf` calls relevant to the claims are recorded as `LogEntry`
  values appended to `ServerState.log`.
-/

namespace FlowRelay

/-- Capacity of a client's outbound channel: `make(chan []byte, 256)`. -/
def sendCapacity : Nat := 256

/-- `maxUpdateSize = 10 * 1024 * 1024` from `logYDocContent`. -/
def maxUpdateSize : Nat := 10 * 1024 * 1024

/-- A binary frame / payload: a `[]byte` as a list of byte values. -/
abbrev Bytes := List Nat

/-- Log lines emitted by the handler (only those the claims talk about). -/
inductive LogEntry where
  | receivedType (tag len : Nat)
  | warnOversize (len : Nat)
  | receivedUpdate (len : Nat)
  | updatePreview (previewLen : Nat)
  | estimated (nodes edges : Nat)
  | stateSaved (len : Nat)
  | noSavedState
  | errorLoading (e : String)
  | savedStateEmpty
  | stateLoaded (len : Nat)
deriving DecidableEq

/-- One connected client: identity of the `*client` pointer, the room
path segment its connection was made with, and its outbound queue. -/
structure Client where
  cid : Nat
  room : String
  send : List Bytes
deriving DecidableEq

/-- The mutable package-level state of `handlers`: the client registry,
the shared blob, the snapshot file, the number of `go saveState()`
spawns, and the log. -/
structure ServerState where
  clients : List Client
  sharedState : Bytes
  file : Option Bytes
  pendingSaves : Nat
  log : List LogEntry
deriving DecidableEq

/-- The state at process start, before `init` runs `loadState`. -/
def initialState : ServerState :=
  { clients := [], sharedState := [], file := none, pendingSaves := 0, log := [] }

/-- The non-blocking `select { case client.send <- msg: default: }`:
enqueue if the channel has a free slot, otherwise drop silently. -/
def trySend (cl : Client) (msg : Bytes) : Client :=
  if cl.send.length < sendCapacity then { cl with send := cl.send ++ [msg] } else cl

/-- `broadcastMessage`: for every registered client other than the
sender (pointer comparison `client != c`, here by `cid`), attempt a
non-blocking enqueue.  Always returns `nil` (no error). -/
def broadcastMessage (st : ServerState) (senderId : Nat) (msg : Bytes) :
    ServerState × Option String :=
  ({ st with
      clients := st.clients.map fun cl =>
        if cl.cid = senderId then cl else trySend cl msg },
   none)

/-- `logYDocContent`: if the update exceeds `maxUpdateSize`, log a
warning and return; otherwise log the update size, a preview, and the
size-based estimates.  Pure logging: nothing else is touched. -/
def logYDocContent (st : ServerState) (update : Bytes) : ServerState :=
  if update.length > maxUpdateSize then
    { st with log := st.log ++ [.warnOversize update.length] }
  else
    let st1 := { st with log := st.log ++ [.receivedUpdate update.length] }
    if update.length > 0 then
      { st1 with log := st1.log ++
          [.updatePreview (min 100 update.length),
           .estimated (update.length / 300) (update.length / 100)] }
    else st1

/-- `handleUpdate`: guard `len(msg) < 2 || msg[0] != 2`, strip the tag,
guard `len(update) == 0`, replace the shared blob, log, and spawn
`go saveState()` (recorded as `pendingSaves + 1`). -/
def handleUpdate (st : ServerState) (msg : Bytes) : ServerState :=
  if msg.length < 2 ∨ msg.headD 0 ≠ 2 then st
  else
    let update := msg.drop 1
    if update.length = 0 then st
    else
      let st1 := { st with sharedState := update }
      let st2 := logYDocContent st1 update
      { st2 with pendingSaves := st2.pendingSaves + 1 }

/-- `handleMessage`: empty frames return `nil` immediately; otherwise
the message type is logged, type-2 frames go through `handleUpdate`,
and every non-empty frame is broadcast as-is. -/
def handleMessage (st : ServerState) (senderId : Nat) (msg : Bytes) :
    ServerState × Option String :=
  if msg.length = 0 then (st, none)
  else
    let st1 :=
      if msg.length > 0 then
        { st with log := st.log ++ [.receivedType (msg.headD 0) msg.length] }
      else st
    let st2 := if msg.length > 0 ∧ msg.headD 0 = 2 then handleUpdate st1 msg else st1
    broadcastMessage st2 senderId msg

/-- `saveState`: read the shared blob; if empty, return without touching
the file; otherwise overwrite the snapshot file and log. -/
def saveState (st : ServerState) : ServerState :=
  let data := st.sharedState
  if data.length = 0 then st
  else
    { st with file := some data, log := st.log ++ [.stateSaved data.length] }

/-- Outcome of `os.ReadFile(persistenceFile)`: the file may be absent
(`os.IsNotExist`), unreadable for another reason, or read in full. -/
inductive ReadResult where
  | notFound
  | ioError (e : String)
  | ok (data : Bytes)
deriving DecidableEq

/-- Reading the modelled snapshot file (the happy paths of
`os.ReadFile`): an absent file yields `notFound`. -/
def readSnapshot : Option Bytes → ReadResult
  | none => .notFound
  | some d => .ok d

/-- `loadState` given the outcome of `os.ReadFile`: absent file and read
errors are logged and leave the state as it was (startup proceeds); an
empty file is logged and ignored; otherwise the blob is replaced. -/
def loadStateFrom (st : ServerState) (r : ReadResult) : ServerState :=
  match r with
  | .notFound => { st with log := st.log ++ [.noSavedState] }
  | .ioError e => { st with log := st.log ++ [.errorLoading e] }
  | .ok data =>
    if data.length = 0 then { st with log := st.log ++ [.savedStateEmpty] }
    else { st with sharedState := data, log := st.log ++ [.stateLoaded data.length] }

/-- Process restart with snapshot file `disk` on disk: `init` runs
`loadState` on a fresh state. -/
def restart (disk : Option Bytes) : ServerState :=
  loadStateFrom { initialState with file := disk } (readSnapshot disk)

/-- One iteration outcome of `conn.ReadMessage()` in `readPump`:
either a frame arrives or the transport read fails. -/
inductive ReadEvent where
  | frame (msg : Bytes)
  | readErr
deriving DecidableEq

/-- `readPump`: process transport reads in order; stop at the first
transport read error, or at the first `handleMessage` error (the
`break` at line 106 of the source). -/
def readPump (st : ServerState) (senderId : Nat) : List ReadEvent → ServerState
  | [] => st
  | .readErr :: _ => st
  | .frame m :: rest =>
    match handleMessage st senderId m with
    | (st2, some _) => st2
    | (st2, none) => readPump st2 senderId rest

end FlowRelay

namespace FlowRelay

theorem logYDocContent_clients (st : ServerState) (u : Bytes) :
    (logYDocContent st u).clients = st.clients := by
  simp only [logYDocContent]
  split_ifs <;> rfl

theorem logYDocContent_sharedState (st : ServerState) (u : Bytes) :
    (logYDocContent st u).sharedState = st.sharedState := by
  simp only [logYDocContent]
  split_ifs <;> rfl

theorem logYDocContent_file (st : ServerState) (u : Bytes) :
    (logYDocContent st u).file = st.file := by
  simp only [logYDocContent]
  split_ifs <;> rfl

theorem logYDocContent_pendingSaves (st : ServerState) (u : Bytes) :
    (logYDocContent st u).pendingSaves = st.pendingSaves := by
  simp only [logYDocContent]
  split_ifs <;> rfl

theorem logYDocContent_warn (st : ServerState) (u : Bytes)
    (h : u.length > maxUpdateSize) :
    (logYDocContent st u).log = st.log ++ [.warnOversize u.length] := by
  simp only [logYDocContent]
  rw [if_pos h]

theorem handleUpdate_clients (st : ServerState) (msg : Bytes) :
    (handleUpdate st msg).clients = st.clients := by
  simp only [handleUpdate]
  split_ifs <;> simp [logYDocContent_clients]

theorem handleUpdate_file (st : ServerState) (msg : Bytes) :
    (handleUpdate st msg).file = st.file := by
  simp only [handleUpdate]
  split_ifs <;> simp [logYDocContent_file]

theorem drop_one_ne_nil_length {msg : Bytes} (h : msg.drop 1 ≠ []) :
    2 ≤ msg.length := by
  by_contra hlt
  exact h (List.drop_eq_nil_iff.mpr (by omega))

theorem handleUpdate_applied (st : ServerState) (msg : Bytes)
    (h2 : msg.headD 0 = 2) (hne : msg.drop 1 ≠ []) :
    (handleUpdate st msg).sharedState = msg.drop 1 ∧
    (handleUpdate st msg).pendingSaves = st.pendingSaves + 1 := by
  have hlen := drop_one_ne_nil_length hne
  simp only [handleUpdate]
  split_ifs with hA hB
  · rcases hA with h | h
    · omega
    · exact absurd h2 h
  · exact absurd (List.length_eq_zero.mp hB) hne
  · exact ⟨by simp [logYDocContent_sharedState],
           by simp [logYDocContent_pendingSaves]⟩

theorem handleUpdate_skip (st : ServerState) (msg : Bytes)
    (h : msg.length < 2 ∨ msg.headD 0 ≠ 2) :
    handleUpdate st msg = st := by
  simp only [handleUpdate]
  rw [if_pos h]

theorem handleMessage_nonempty (st : ServerState) (sender : Nat) (msg : Bytes)
    (h0 : msg ≠ []) :
    handleMessage st sender msg =
      broadcastMessage
        (if msg.headD 0 = 2 then
          handleUpdate
            { st with log := st.log ++ [.receivedType (msg.headD 0) msg.length] } msg
         else { st with log := st.log ++ [.receivedType (msg.headD 0) msg.length] })
        sender msg := by
  have hlen : msg.length ≠ 0 := by simpa using h0
  have hpos : msg.length > 0 := Nat.pos_of_ne_zero hlen
  simp only [handleMessage]
  rw [if_neg hlen, if_pos hpos]
  congr 1
  split_ifs with hc h2 h2
  · rfl
  · exact absurd hc.2 h2
  · exact absurd ⟨hpos, h2⟩ hc
  · rfl

end FlowRelay

namespace FlowRelay

theorem broadcast_error_none (st : ServerState) (sender : Nat) (msg : Bytes) :
    (broadcastMessage st sender msg).2 = none := rfl

theorem broadcast_sharedState (st : ServerState) (sender : Nat) (msg : Bytes) :
    (broadcastMessage st sender msg).1.sharedState = st.sharedState := rfl

theorem broadcast_pendingSaves (st : ServerState) (sender : Nat) (msg : Bytes) :
    (broadcastMessage st sender msg).1.pendingSaves = st.pendingSaves := rfl

theorem broadcast_file (st : ServerState) (sender : Nat) (msg : Bytes) :
    (broadcastMessage st sender msg).1.file = st.file := rfl

theorem broadcast_recv (st : ServerState) (sender : Nat) (msg : Bytes) (cl : Client)
    (hm : cl ∈ st.clients) (hne : cl.cid ≠ sender)
    (hsp : cl.send.length < sendCapacity) :
    ∃ cl2 ∈ (broadcastMessage st sender msg).1.clients,
      cl2.cid = cl.cid ∧ cl2.room = cl.room ∧ cl2.send = cl.send ++ [msg] := by
  refine ⟨{ cl with send := cl.send ++ [msg] }, ?_, rfl, rfl, rfl⟩
  have hf : (fun c : Client => if c.cid = sender then c else trySend c msg) cl
      = { cl with send := cl.send ++ [msg] } := by
    simp only [trySend, if_neg hne, if_pos hsp]
  have hmem := List.mem_map_of_mem
    (fun c : Client => if c.cid = sender then c else trySend c msg) hm
  rw [hf] at hmem
  exact hmem

theorem broadcast_keeps (st : ServerState) (sender : Nat) (msg : Bytes) (cl : Client)
    (hm : cl ∈ st.clients)
    (h : cl.cid = sender ∨ sendCapacity ≤ cl.send.length) :
    cl ∈ (broadcastMessage st sender msg).1.clients := by
  have hf : (fun c : Client => if c.cid = sender then c else trySend c msg) cl = cl := by
    by_cases hc : cl.cid = sender
    · simp [hc]
    · rcases h with h | h
      · exact absurd h hc
      · simp [hc, trySend, Nat.not_lt.mpr h]
  have hmem := List.mem_map_of_mem
    (fun c : Client => if c.cid = sender then c else trySend c msg) hm
  rw [hf] at hmem
  exact hmem

theorem broadcast_from_registered (st : ServerState) (sender : Nat) (msg : Bytes)
    (cl2 : Client) (hm : cl2 ∈ (broadcastMessage st sender msg).1.clients) :
    ∃ cl ∈ st.clients, cl2.cid = cl.cid ∧ cl2.room = cl.room ∧
      (cl2.send = cl.send ∨ (cl2.cid ≠ sender ∧ cl2.send = cl.send ++ [msg])) := by
  simp only [broadcastMessage, List.mem_map] at hm
  obtain ⟨cl, hcl, heq⟩ := hm
  refine ⟨cl, hcl, ?_⟩
  by_cases hc : cl.cid = sender
  · rw [← heq]
    simp [hc]
  · by_cases hs : cl.send.length < sendCapacity
    · have ht : trySend cl msg = { cl with send := cl.send ++ [msg] } := by
        simp only [trySend, if_pos hs]
      rw [← heq, if_neg hc, ht]
      exact ⟨rfl, rfl, Or.inr ⟨hc, rfl⟩⟩
    · have ht : trySend cl msg = cl := by
        simp only [trySend, if_neg hs]
      rw [← heq, if_neg hc, ht]
      exact ⟨rfl, rfl, Or.inl rfl⟩

theorem saveState_empty (st : ServerState) (h : st.sharedState = []) :
    saveState st = st := by
  simp only [saveState]
  rw [if_pos (by simp [h])]

theorem saveState_file (st : ServerState) (h : st.sharedState ≠ []) :
    (saveState st).file = some st.sharedState := by
  simp only [saveState]
  rw [if_neg (by simpa using h)]

end FlowRelay

namespace FlowRelay

theorem broadcast_log (st : ServerState) (sender : Nat) (msg : Bytes) :
    (broadcastMessage st sender msg).1.log = st.log := rfl

theorem handleMessage_update_eq (st : ServerState) (sender : Nat) (msg : Bytes)
    (h0 : msg ≠ []) (h2 : msg.headD 0 = 2) :
    handleMessage st sender msg =
      broadcastMessage
        (handleUpdate
          { st with log := st.log ++ [.receivedType (msg.headD 0) msg.length] } msg)
        sender msg := by
  rw [handleMessage_nonempty st sender msg h0, if_pos h2]

theorem handleMessage_other_eq (st : ServerState) (sender : Nat) (msg : Bytes)
    (h0 : msg ≠ []) (h2 : msg.headD 0 ≠ 2) :
    handleMessage st sender msg =
      broadcastMessage
        { st with log := st.log ++ [.receivedType (msg.headD 0) msg.length] }
        sender msg := by
  rw [handleMessage_nonempty st sender msg h0, if_neg h2]

theorem handleUpdate_warnlog (st : ServerState) (msg : Bytes)
    (h2 : msg.headD 0 = 2) (hne : msg.drop 1 ≠ [])
    (hbig : maxUpdateSize < (msg.drop 1).length) :
    (handleUpdate st msg).log = st.log ++ [.warnOversize (msg.drop 1).length] := by
  have hlen := drop_one_ne_nil_length hne
  simp only [handleUpdate]
  split_ifs with hA hB
  · rcases hA with h | h
    · omega
    · exact absurd h2 h
  · exact absurd (List.length_eq_zero.mp hB) hne
  · show (logYDocContent _ (msg.drop 1)).log = _
    rw [logYDocContent_warn _ _ hbig]

def bigUpdate : Bytes := List.replicate (maxUpdateSize + 1) 3

def bigMsg : Bytes := 2 :: bigUpdate

def demoTwoClients : ServerState :=
  { clients := [{ cid := 0, room := "r1", send := [] },
                { cid := 1, room := "r1", send := [] }],
    sharedState := [7], file := some [7], pendingSaves := 0, log := [] }

theorem bigMsg_ne_nil : bigMsg ≠ [] := List.cons_ne_nil 2 bigUpdate

theorem bigMsg_head : bigMsg.headD 0 = 2 := rfl

theorem bigMsg_drop : bigMsg.drop 1 = bigUpdate := rfl

theorem bigUpdate_length : bigUpdate.length = maxUpdateSize + 1 := by
  simp [bigUpdate]

theorem bigMsg_drop_ne_nil : bigMsg.drop 1 ≠ [] := by
  rw [bigMsg_drop]
  intro h
  have hl := congrArg List.length h
  rw [bigUpdate_length] at hl
  simp at hl

/-- C1: counterexample.  `bigMsg` is an update frame whose tag-stripped
payload exceeds 10 MiB, yet handling it replaces the Shared State Blob,
schedules a save, and broadcasts the frame to the other client. -/
theorem C1_counterexample :
    bigMsg.headD 0 = 2 ∧
    maxUpdateSize < (bigMsg.drop 1).length ∧
    (handleMessage demoTwoClients 0 bigMsg).1.sharedState ≠ demoTwoClients.sharedState ∧
    (handleMessage demoTwoClients 0 bigMsg).1.pendingSaves ≠ demoTwoClients.pendingSaves ∧
    ∃ cl ∈ (handleMessage demoTwoClients 0 bigMsg).1.clients,
      cl.cid = 1 ∧ bigMsg ∈ cl.send := by
  have hmsg := handleMessage_update_eq demoTwoClients 0 bigMsg bigMsg_ne_nil bigMsg_head
  obtain ⟨hshared, hpend⟩ :=
    handleUpdate_applied
      { demoTwoClients with
          log := demoTwoClients.log ++ [.receivedType (bigMsg.headD 0) bigMsg.length] }
      bigMsg bigMsg_head bigMsg_drop_ne_nil
  refine ⟨bigMsg_head, ?_, ?_, ?_, ?_⟩
  · rw [bigMsg_drop, bigUpdate_length]
    omega
  · rw [hmsg, broadcast_sharedState, hshared, bigMsg_drop]
    intro h
    have hl := congrArg List.length h
    rw [bigUpdate_length] at hl
    simp [demoTwoClients, maxUpdateSize] at hl
  · rw [hmsg, broadcast_pendingSaves, hpend]
    simp [demoTwoClients]
  · rw [hmsg]
    have hm2 : ({ cid := 1, room := "r1", send := [] } : Client) ∈
        (handleUpdate
          { demoTwoClients with
              log := demoTwoClients.log ++ [.receivedType (bigMsg.headD 0) bigMsg.length] }
          bigMsg).clients := by
      rw [handleUpdate_clients]
      exact List.mem_cons_of_mem _ (List.mem_cons_self _ _)
    obtain ⟨cl2, hmem, hcid, _, hsend⟩ :=
      broadcast_recv _ 0 bigMsg _ hm2 (by decide) (by decide)
    exact ⟨cl2, hmem, hcid, by rw [hsend]; simp⟩

/-- C1 amended: an update frame with a non-empty tag-stripped payload is
always applied, even when the payload exceeds 10 MiB: the blob is
replaced, a save is scheduled, and the frame is broadcast to every other
registered client with queue space; the oversize check only logs a
warning. -/
theorem C1_oversized_update_still_applied (st : ServerState) (sender : Nat)
    (msg : Bytes) (h2 : msg.headD 0 = 2) (hne : msg.drop 1 ≠ []) :
    (handleMessage st sender msg).1.sharedState = msg.drop 1 ∧
    (handleMessage st sender msg).1.pendingSaves = st.pendingSaves + 1 ∧
    (handleMessage st sender msg).2 = none ∧
    (maxUpdateSize < (msg.drop 1).length →
      LogEntry.warnOversize (msg.drop 1).length ∈ (handleMessage st sender msg).1.log) ∧
    ∀ cl ∈ st.clients, cl.cid ≠ sender → cl.send.length < sendCapacity →
      ∃ cl2 ∈ (handleMessage st sender msg).1.clients,
        cl2.cid = cl.cid ∧ cl2.send = cl.send ++ [msg] := by
  have hb : msg ≠ [] := by
    intro h
    rw [h] at h2
    simp at h2
  have hmsg := handleMessage_update_eq st sender msg hb h2
  obtain ⟨hshared, hpend⟩ :=
    handleUpdate_applied
      { st with log := st.log ++ [.receivedType (msg.headD 0) msg.length] }
      msg h2 hne
  refine ⟨?_, ?_, ?_, ?_, ?_⟩
  · rw [hmsg, broadcast_sharedState, hshared]
  · rw [hmsg, broadcast_pendingSaves, hpend]
  · rw [hmsg]
    exact broadcast_error_none _ _ _
  · intro hbig
    rw [hmsg, broadcast_log,
      handleUpdate_warnlog
        { st with log := st.log ++ [.receivedType (msg.headD 0) msg.length] }
        msg h2 hne hbig]
    simp
  · intro cl hm hneq hsp
    rw [hmsg]
    have hm2 : cl ∈
        (handleUpdate
          { st with log := st.log ++ [.receivedType (msg.headD 0) msg.length] }
          msg).clients := by
      rw [handleUpdate_clients]
      exact hm
    obtain ⟨cl2, hmem, hcid, _, hsend⟩ :=
      broadcast_recv _ sender msg cl hm2 hneq hsp
    exact ⟨cl2, hmem, hcid, hsend⟩

/-- C1 witness: the amended claim applied to `bigMsg` (10 MiB + 1 payload)
sent into a two-client room. -/
theorem C1_oversized_update_still_applied_witness :
    (bigMsg.headD 0 = 2 ∧ bigMsg.drop 1 ≠ []) ∧
    ((handleMessage demoTwoClients 0 bigMsg).1.sharedState = bigMsg.drop 1 ∧
     (handleMessage demoTwoClients 0 bigMsg).1.pendingSaves = demoTwoClients.pendingSaves + 1 ∧
     (handleMessage demoTwoClients 0 bigMsg).2 = none ∧
     (maxUpdateSize < (bigMsg.drop 1).length →
       LogEntry.warnOversize (bigMsg.drop 1).length ∈ (handleMessage demoTwoClients 0 bigMsg).1.log) ∧
     ∀ cl ∈ demoTwoClients.clients, cl.cid ≠ 0 → cl.send.length < sendCapacity →
       ∃ cl2 ∈ (handleMessage demoTwoClients 0 bigMsg).1.clients,
         cl2.cid = cl.cid ∧ cl2.send = cl.send ++ [bigMsg]) :=
  ⟨⟨bigMsg_head, bigMsg_drop_ne_nil⟩,
   C1_oversized_update_still_applied demoTwoClients 0 bigMsg bigMsg_head bigMsg_drop_ne_nil⟩

end FlowRelay

namespace FlowRelay

/-- C2: counterexample.  The frame `[5]` has first byte 5 (neither 0, 1,
nor 2), yet handling it is not a no-op: the frame is delivered to the
other registered client. -/
theorem C2_counterexample :
    ((5 : Nat) ≠ 0 ∧ (5 : Nat) ≠ 1 ∧ (5 : Nat) ≠ 2) ∧
    (handleMessage demoTwoClients 0 [5]).1.clients.map Client.send = [[], [[5]]] ∧
    (handleMessage demoTwoClients 0 [5]).1.sharedState = demoTwoClients.sharedState :=
  ⟨⟨by decide, by decide, by decide⟩, rfl, rfl⟩

/-- C2 amended: an empty frame is a full no-op, and a non-empty frame whose
first byte is neither 0, 1 nor 2 leaves the Shared State Blob unchanged,
schedules no save and does not close the sender's connection — but it IS
still broadcast to every other registered client with queue space. -/
theorem C2_unknown_tag_relayed (st : ServerState) (sender : Nat) (msg : Bytes)
    (h0 : msg ≠ []) (ht0 : msg.headD 0 ≠ 0) (ht1 : msg.headD 0 ≠ 1)
    (ht2 : msg.headD 0 ≠ 2) :
    (handleMessage st sender msg).2 = none ∧
    (handleMessage st sender msg).1.sharedState = st.sharedState ∧
    (handleMessage st sender msg).1.pendingSaves = st.pendingSaves ∧
    (handleMessage st sender msg).1.file = st.file ∧
    handleMessage st sender [] = (st, none) ∧
    ∀ cl ∈ st.clients, cl.cid ≠ sender → cl.send.length < sendCapacity →
      ∃ cl2 ∈ (handleMessage st sender msg).1.clients,
        cl2.cid = cl.cid ∧ cl2.send = cl.send ++ [msg] := by
  have hmsg := handleMessage_other_eq st sender msg h0 ht2
  refine ⟨?_, ?_, ?_, ?_, rfl, ?_⟩
  · rw [hmsg]
    exact broadcast_error_none _ _ _
  · rw [hmsg, broadcast_sharedState]
  · rw [hmsg, broadcast_pendingSaves]
  · rw [hmsg, broadcast_file]
  · intro cl hm hneq hsp
    rw [hmsg]
    have hm2 : cl ∈
        ({ st with log := st.log ++ [.receivedType (msg.headD 0) msg.length] } :
          ServerState).clients := hm
    obtain ⟨cl2, hmem, hcid, _, hsend⟩ :=
      broadcast_recv _ sender msg cl hm2 hneq hsp
    exact ⟨cl2, hmem, hcid, hsend⟩

/-- C2 witness: the amended claim applied to the frame `[5]` in a
two-client registry. -/
theorem C2_unknown_tag_relayed_witness :
    (([5] : Bytes) ≠ [] ∧ List.headD ([5] : Bytes) 0 ≠ 0 ∧
      List.headD ([5] : Bytes) 0 ≠ 1 ∧ List.headD ([5] : Bytes) 0 ≠ 2) ∧
    ((handleMessage demoTwoClients 0 [5]).2 = none ∧
     (handleMessage demoTwoClients 0 [5]).1.sharedState = demoTwoClients.sharedState ∧
     (handleMessage demoTwoClients 0 [5]).1.pendingSaves = demoTwoClients.pendingSaves ∧
     (handleMessage demoTwoClients 0 [5]).1.file = demoTwoClients.file ∧
     handleMessage demoTwoClients 0 [] = (demoTwoClients, none) ∧
     ∀ cl ∈ demoTwoClients.clients, cl.cid ≠ 0 → cl.send.length < sendCapacity →
       ∃ cl2 ∈ (handleMessage demoTwoClients 0 [5]).1.clients,
         cl2.cid = cl.cid ∧ cl2.send = cl.send ++ [[5]]) :=
  ⟨⟨by decide, by decide, by decide, by decide⟩,
   C2_unknown_tag_relayed demoTwoClients 0 [5]
     (by decide) (by decide) (by decide) (by decide)⟩

def twoRoomState : ServerState :=
  { clients := [{ cid := 0, room := "r1", send := [] },
                { cid := 1, room := "r2", send := [] }],
    sharedState := [], file := none, pendingSaves := 0, log := [] }

/-- C3: counterexample.  Client 0 is registered under room "r1", client 1
under room "r2"; a frame broadcast by client 0 is still delivered to
client 1, so the recipients are not confined to the sender's room. -/
theorem C3_counterexample :
    twoRoomState.clients.map Client.room = ["r1", "r2"] ∧
    (broadcastMessage twoRoomState 0 [2, 9]).1.clients.map Client.send =
      [[], [[2, 9]]] :=
  ⟨rfl, rfl⟩

/-- C3 amended: the relay keeps no per-room partition: a broadcast is
attempted to every registered client other than the sender regardless of
its room, and every recipient (any entry whose queue gained the frame)
is drawn from the registered clients and is never the sender. -/
theorem C3_broadcast_ignores_rooms (st : ServerState) (sender : Nat) (msg : Bytes)
    (cl : Client) (hm : cl ∈ st.clients) (hne : cl.cid ≠ sender)
    (hsp : cl.send.length < sendCapacity) :
    (∃ cl2 ∈ (broadcastMessage st sender msg).1.clients,
        cl2.cid = cl.cid ∧ cl2.room = cl.room ∧ cl2.send = cl.send ++ [msg]) ∧
    ∀ cl2 ∈ (broadcastMessage st sender msg).1.clients,
      ∃ cl0 ∈ st.clients, cl2.cid = cl0.cid ∧ cl2.room = cl0.room ∧
        (cl2.send = cl0.send ∨ (cl2.cid ≠ sender ∧ cl2.send = cl0.send ++ [msg])) :=
  ⟨broadcast_recv st sender msg cl hm hne hsp,
   fun cl2 hm2 => broadcast_from_registered st sender msg cl2 hm2⟩

/-- C3 witness: the amended claim applied with sender 0 in room "r1" and
recipient 1 in room "r2". -/
theorem C3_broadcast_ignores_rooms_witness :
    (({ cid := 1, room := "r2", send := [] } : Client) ∈ twoRoomState.clients ∧
      (1 : Nat) ≠ 0 ∧ ([] : List Bytes).length < sendCapacity) ∧
    ((∃ cl2 ∈ (broadcastMessage twoRoomState 0 [9]).1.clients,
        cl2.cid = 1 ∧ cl2.room = "r2" ∧ cl2.send = [[9]]) ∧
     ∀ cl2 ∈ (broadcastMessage twoRoomState 0 [9]).1.clients,
       ∃ cl0 ∈ twoRoomState.clients, cl2.cid = cl0.cid ∧ cl2.room = cl0.room ∧
         (cl2.send = cl0.send ∨ (cl2.cid ≠ 0 ∧ cl2.send = cl0.send ++ [[9]]))) :=
  ⟨⟨List.mem_cons_of_mem _ (List.mem_cons_self _ _), by decide,
     by simp [sendCapacity]⟩,
   C3_broadcast_ignores_rooms twoRoomState 0 [9]
     { cid := 1, room := "r2", send := [] }
     (List.mem_cons_of_mem _ (List.mem_cons_self _ _)) (by decide)
     (by simp [sendCapacity])⟩

/-- C4: a type-2 frame with non-empty tag-stripped payload replaces the
Shared State Blob with exactly that payload; the immediately following
broadcast enqueues the original frame unmodified to every other
registered client with queue space, and the sender's own queue is left
untouched. -/
theorem C4_update_applied_and_relayed (st : ServerState) (sender : Nat)
    (msg : Bytes) (h2 : msg.headD 0 = 2) (hne : msg.drop 1 ≠ []) :
    (handleMessage st sender msg).1.sharedState = msg.drop 1 ∧
    (handleMessage st sender msg).2 = none ∧
    (∀ cl ∈ st.clients, cl.cid ≠ sender → cl.send.length < sendCapacity →
      ∃ cl2 ∈ (handleMessage st sender msg).1.clients,
        cl2.cid = cl.cid ∧ cl2.room = cl.room ∧ cl2.send = cl.send ++ [msg]) ∧
    ∀ cl ∈ st.clients, cl.cid = sender →
      cl ∈ (handleMessage st sender msg).1.clients := by
  have hb : msg ≠ [] := by
    intro h
    rw [h] at h2
    simp at h2
  have hmsg := handleMessage_update_eq st sender msg hb h2
  obtain ⟨hshared, _⟩ :=
    handleUpdate_applied
      { st with log := st.log ++ [.receivedType (msg.headD 0) msg.length] }
      msg h2 hne
  refine ⟨?_, ?_, ?_, ?_⟩
  · rw [hmsg, broadcast_sharedState, hshared]
  · rw [hmsg]
    exact broadcast_error_none _ _ _
  · intro cl hm hneq hsp
    rw [hmsg]
    have hm2 : cl ∈
        (handleUpdate
          { st with log := st.log ++ [.receivedType (msg.headD 0) msg.length] }
          msg).clients := by
      rw [handleUpdate_clients]
      exact hm
    exact broadcast_recv _ sender msg cl hm2 hneq hsp
  · intro cl hm hcid
    rw [hmsg]
    have hm2 : cl ∈
        (handleUpdate
          { st with log := st.log ++ [.receivedType (msg.headD 0) msg.length] }
          msg).clients := by
      rw [handleUpdate_clients]
      exact hm
    exact broadcast_keeps _ sender msg cl hm2 (Or.inl hcid)

def threeClients : ServerState :=
  { clients := [{ cid := 0, room := "r1", send := [] },
                { cid := 1, room := "r1", send := [] },
                { cid := 2, room := "r1", send := [] }],
    sharedState := [], file := none, pendingSaves := 0, log := [] }

/-- C4 witness: the spec scenario — three clients in room "r1", client 0
sends the update frame `[2, 1, 2, 3]`. -/
theorem C4_update_applied_and_relayed_witness :
    (List.headD ([2, 1, 2, 3] : Bytes) 0 = 2 ∧
      List.drop 1 ([2, 1, 2, 3] : Bytes) ≠ []) ∧
    ((handleMessage threeClients 0 [2, 1, 2, 3]).1.sharedState =
        List.drop 1 ([2, 1, 2, 3] : Bytes) ∧
     (handleMessage threeClients 0 [2, 1, 2, 3]).2 = none ∧
     (∀ cl ∈ threeClients.clients, cl.cid ≠ 0 → cl.send.length < sendCapacity →
       ∃ cl2 ∈ (handleMessage threeClients 0 [2, 1, 2, 3]).1.clients,
         cl2.cid = cl.cid ∧ cl2.room = cl.room ∧
           cl2.send = cl.send ++ [[2, 1, 2, 3]]) ∧
     ∀ cl ∈ threeClients.clients, cl.cid = 0 →
       cl ∈ (handleMessage threeClients 0 [2, 1, 2, 3]).1.clients) :=
  ⟨⟨by decide, by decide⟩,
   C4_update_applied_and_relayed threeClients 0 [2, 1, 2, 3]
     (by decide) (by decide)⟩

/-- C9: the bare tag frame `[2]` (update tag with empty payload) leaves
the Shared State Blob, the snapshot file and the save schedule unchanged
and returns no error, yet it is still broadcast to every other registered
client with queue space. -/
theorem C9_bare_update_tag (st : ServerState) (sender : Nat) :
    (handleMessage st sender [2]).1.sharedState = st.sharedState ∧
    (handleMessage st sender [2]).1.pendingSaves = st.pendingSaves ∧
    (handleMessage st sender [2]).1.file = st.file ∧
    (handleMessage st sender [2]).2 = none ∧
    ∀ cl ∈ st.clients, cl.cid ≠ sender → cl.send.length < sendCapacity →
      ∃ cl2 ∈ (handleMessage st sender [2]).1.clients,
        cl2.cid = cl.cid ∧ cl2.send = cl.send ++ [[2]] := by
  have hmsg := handleMessage_update_eq st sender [2] (by decide) rfl
  rw [handleUpdate_skip _ [2] (Or.inl (by decide))] at hmsg
  refine ⟨?_, ?_, ?_, ?_, ?_⟩
  · rw [hmsg, broadcast_sharedState]
  · rw [hmsg, broadcast_pendingSaves]
  · rw [hmsg, broadcast_file]
  · rw [hmsg]
    exact broadcast_error_none _ _ _
  · intro cl hm hneq hsp
    rw [hmsg]
    have hm2 : cl ∈
        ({ st with log := st.log ++ [.receivedType (List.headD [2] 0) (List.length [2])] } :
          ServerState).clients := hm
    obtain ⟨cl2, hmem, hcid, _, hsend⟩ :=
      broadcast_recv _ sender [2] cl hm2 hneq hsp
    exact ⟨cl2, hmem, hcid, hsend⟩

/-- C9 witness: the bare tag frame `[2]` sent by client 0 into a
two-client registry. -/
theorem C9_bare_update_tag_witness :
    (handleMessage demoTwoClients 0 [2]).1.sharedState = demoTwoClients.sharedState ∧
    (handleMessage demoTwoClients 0 [2]).1.pendingSaves = demoTwoClients.pendingSaves ∧
    (handleMessage demoTwoClients 0 [2]).1.file = demoTwoClients.file ∧
    (handleMessage demoTwoClients 0 [2]).2 = none ∧
    ∀ cl ∈ demoTwoClients.clients, cl.cid ≠ 0 → cl.send.length < sendCapacity →
      ∃ cl2 ∈ (handleMessage demoTwoClients 0 [2]).1.clients,
        cl2.cid = cl.cid ∧ cl2.send = cl.send ++ [[2]] :=
  C9_bare_update_tag demoTwoClients 0

end FlowRelay

namespace FlowRelay

/-- C5: saving a non-empty Shared State Blob and then restarting the
process (reloading the snapshot file) yields a blob byte-for-byte equal to
the saved value. -/
theorem C5_persistence_roundtrip (st : ServerState) (h : st.sharedState ≠ []) :
    (saveState st).file = some st.sharedState ∧
    (restart (saveState st).file).sharedState = st.sharedState := by
  have hfile := saveState_file st h
  refine ⟨hfile, ?_⟩
  rw [hfile]
  simp only [restart, readSnapshot, loadStateFrom]
  rw [if_neg (by simpa using h)]

/-- C5 witness: round-trip of the blob `[7]`. -/
theorem C5_persistence_roundtrip_witness :
    demoTwoClients.sharedState ≠ [] ∧
    ((saveState demoTwoClients).file = some demoTwoClients.sharedState ∧
     (restart (saveState demoTwoClients).file).sharedState =
       demoTwoClients.sharedState) :=
  ⟨by decide, C5_persistence_roundtrip demoTwoClients (by decide)⟩

/-- C6: loading with the snapshot file absent leaves the Shared State Blob
empty (logged), and any other read failure is likewise non-fatal: it is
logged and startup proceeds with an empty blob. -/
theorem C6_load_missing_or_failed (e : String) :
    (restart none).sharedState = [] ∧
    LogEntry.noSavedState ∈ (restart none).log ∧
    (loadStateFrom initialState (.ioError e)).sharedState = [] ∧
    LogEntry.errorLoading e ∈ (loadStateFrom initialState (.ioError e)).log := by
  refine ⟨rfl, ?_, rfl, ?_⟩
  · simp [restart, readSnapshot, loadStateFrom, initialState]
  · simp [loadStateFrom, initialState]

/-- C7: `saveState` with an empty in-memory blob is a no-op; in particular
the snapshot file keeps its previous contents. -/
theorem C7_save_empty_is_noop (st : ServerState) (h : st.sharedState = []) :
    saveState st = st ∧ (saveState st).file = st.file := by
  have heq := saveState_empty st h
  exact ⟨heq, by rw [heq]⟩

/-- C7 witness: an empty blob with snapshot `[7]` on disk stays exactly as
it is. -/
theorem C7_save_empty_is_noop_witness :
    ({ clients := [], sharedState := [], file := some [7],
       pendingSaves := 0, log := [] } : ServerState).sharedState = [] ∧
    (saveState { clients := [], sharedState := [], file := some [7],
                 pendingSaves := 0, log := [] } =
       { clients := [], sharedState := [], file := some [7],
         pendingSaves := 0, log := [] } ∧
     (saveState { clients := [], sharedState := [], file := some [7],
                  pendingSaves := 0, log := [] }).file = some [7]) :=
  ⟨rfl,
   C7_save_empty_is_noop
     { clients := [], sharedState := [], file := some [7],
       pendingSaves := 0, log := [] } rfl⟩

/-- C8: a broadcast to a client whose outbound queue already holds 256
pending messages leaves that client unchanged (the frame is dropped), the
broadcast still reports no error, and every other registered client with
queue space still receives the frame. -/
theorem C8_full_queue_drops (st : ServerState) (sender : Nat) (msg : Bytes)
    (cl : Client) (hm : cl ∈ st.clients) (hne : cl.cid ≠ sender)
    (hfull : sendCapacity ≤ cl.send.length) :
    cl ∈ (broadcastMessage st sender msg).1.clients ∧
    (broadcastMessage st sender msg).2 = none ∧
    ∀ cl2 ∈ st.clients, cl2.cid ≠ sender → cl2.send.length < sendCapacity →
      ∃ cl3 ∈ (broadcastMessage st sender msg).1.clients,
        cl3.cid = cl2.cid ∧ cl3.send = cl2.send ++ [msg] :=
  ⟨broadcast_keeps st sender msg cl hm (Or.inr hfull),
   broadcast_error_none st sender msg,
   fun cl2 hm2 hne2 hsp2 => by
     obtain ⟨cl3, hmem, hcid, _, hsend⟩ :=
       broadcast_recv st sender msg cl2 hm2 hne2 hsp2
     exact ⟨cl3, hmem, hcid, hsend⟩⟩

def saturatedClient : Client :=
  { cid := 1, room := "r1", send := List.replicate sendCapacity [0] }

def saturatedState : ServerState :=
  { clients := [{ cid := 0, room := "r1", send := [] },
                saturatedClient,
                { cid := 2, room := "r1", send := [] }],
    sharedState := [], file := none, pendingSaves := 0, log := [] }

theorem saturatedClient_full : sendCapacity ≤ saturatedClient.send.length := by
  show sendCapacity ≤ (List.replicate sendCapacity ([0] : Bytes)).length
  rw [List.length_replicate]

/-- C8 witness: client 1 has 256 pending messages; a broadcast of `[9]`
from client 0 drops the frame for client 1 but still reaches client 2. -/
theorem C8_full_queue_drops_witness :
    (saturatedClient ∈ saturatedState.clients ∧ saturatedClient.cid ≠ 0 ∧
      sendCapacity ≤ saturatedClient.send.length) ∧
    (saturatedClient ∈ (broadcastMessage saturatedState 0 [9]).1.clients ∧
     (broadcastMessage saturatedState 0 [9]).2 = none ∧
     ∀ cl2 ∈ saturatedState.clients, cl2.cid ≠ 0 →
       cl2.send.length < sendCapacity →
         ∃ cl3 ∈ (broadcastMessage saturatedState 0 [9]).1.clients,
           cl3.cid = cl2.cid ∧ cl3.send = cl2.send ++ [[9]]) :=
  ⟨⟨List.mem_cons_of_mem _ (List.mem_cons_self _ _), by decide,
     saturatedClient_full⟩,
   C8_full_queue_drops saturatedState 0 [9] saturatedClient
     (List.mem_cons_of_mem _ (List.mem_cons_self _ _)) (by decide)
     saturatedClient_full⟩

/-- C10: `handleMessage` returns success on every frame, so the inbound
read loop consumes every frame delivered before the first transport read
failure and stops only there — no frame content breaks the loop. -/
theorem handleMessage_error_none (st : ServerState) (sender : Nat) (msg : Bytes) :
    (handleMessage st sender msg).2 = none := by
  unfold handleMessage
  split <;> rfl

theorem readPump_frame (st : ServerState) (sender : Nat) (m : Bytes)
    (evs : List ReadEvent) :
    readPump st sender (.frame m :: evs) =
      readPump (handleMessage st sender m).1 sender evs := by
  have hp : handleMessage st sender m = ((handleMessage st sender m).1, none) := by
    rw [← handleMessage_error_none st sender m]
  simp only [readPump]
  rw [hp]

theorem C10_no_frame_closes_connection :
    (∀ (st : ServerState) (sender : Nat) (msg : Bytes),
      (handleMessage st sender msg).2 = none) ∧
    ∀ (sender : Nat) (frames : List Bytes) (rest : List ReadEvent)
      (st : ServerState),
      readPump st sender (frames.map ReadEvent.frame ++ ReadEvent.readErr :: rest) =
        frames.foldl (fun s m => (handleMessage s sender m).1) st := by
  refine ⟨handleMessage_error_none, ?_⟩
  intro sender frames rest
  induction frames with
  | nil => intro st; rfl
  | cons m ms ih =>
    intro st
    rw [List.map_cons, List.cons_append, readPump_frame, List.foldl_cons]
    exact ih _

end FlowRelay

namespace FlowRelay

/-- C6 witness: the two failure modes evaluated at a concrete error
message. -/
theorem C6_load_missing_or_failed_witness :
    (restart none).sharedState = [] ∧
    LogEntry.noSavedState ∈ (restart none).log ∧
    (loadStateFrom initialState (.ioError "disk failure")).sharedState = [] ∧
    LogEntry.errorLoading "disk failure" ∈
      (loadStateFrom initialState (.ioError "disk failure")).log :=
  C6_load_missing_or_failed "disk failure"

end FlowRelay
